import Mathlib

/-!
Verification of the arctee retry-compress-atomic-write pipeline
(`arctee.py`, with the near-identical variants `exportwrapper.py`,
`bwnew.py`, `backup-wrapper.py`).

The pipeline is embedded shallowly: the external world (the user command,
the external compressor, the clock/hostname/platform providers) is a value
of type `Env`; each pipeline function returns an `Except Err` result
together with the list of observable events (subprocess invocations,
path resolutions, file writes) it performed, in order.
-/

namespace Arctee

/-- Byte buffers (Python `bytes`) as lists of byte values. -/
abbrev Bytes := List Nat

/-- Result of running one subprocess: models Python's
`subprocess.CompletedProcess` fields used by the scripts. -/
structure CmdResult where
  returncode : Int
  stdout : Bytes
  stderr : Bytes
deriving DecidableEq, Repr

/-- The Python exceptions the pipeline can raise. -/
inductive Err where
  | calledProcessError (returncode : Int)
  | assertionError
  | keyError (name : String)
  | indexError
  | valueError
  | attributeError
  | typeError
deriving DecidableEq, Repr

deriving instance DecidableEq for Except

/-- Observable events of a pipeline run, in order: user-command
invocations (with attempt number and outcome), compressor invocations,
path-template resolutions, and file writes. -/
inductive Event where
  | runCmd (attempt : Nat) (r : CmdResult)
  | runCompressor (cmd : String) (input : Bytes) (r : CmdResult)
  | resolve (template : String) (result : Except Err String)
  | write (path : String) (data : Bytes)
deriving DecidableEq, Repr

/-- The external world: the outcome of the k-th invocation of the user
command (1-indexed), the outcome of the external compressor on a given
command line and input, and the placeholder providers' values
(`utcnow()`, `socket.gethostname()`, `sys.platform`). -/
structure Env where
  cmd : Nat → CmdResult
  compressor : String → Bytes → CmdResult
  utcnow : String
  hostname : String
  platform : String

/- ### Placeholder substitution: model of `str.format(**pdict)`
as used by `replace_placeholders` (arctee.py lines 130-134). -/

/-- The arg_name part of a replacement field: the field content up to the
first `!` (conversion), `:` (format spec), `.` (attribute access) or
`[` (index access), as in Python's format-string field grammar. -/
def fieldName (field : List Char) : List Char :=
  field.takeWhile (fun c => !(c == '!' || c == ':' || c == '.' || c == '['))

/-- Resolve one replacement field against the keyword dictionary, as
Python's `str.format(**pdict)` does with no positional arguments:
an empty or all-digits arg_name is positional and raises `IndexError`;
an unknown keyword raises `KeyError`.  Attribute/index access on the
(string) values is modelled as an error; a `!` conversion or `:` format
spec is applied as the identity (model simplification: the claims never
exercise conversions or format specs). -/
def lookupField (pdict : String → Option String) (field : List Char) : Except Err String :=
  let name := fieldName field
  if name = [] then Except.error Err.indexError
  else if name.all (fun c => c.isDigit) then Except.error Err.indexError
  else
    match pdict (String.mk name) with
    | none => Except.error (Err.keyError (String.mk name))
    | some v =>
      match field.drop name.length with
      | [] => Except.ok v
      | '.' :: _ => Except.error Err.attributeError
      | '[' :: _ => Except.error Err.typeError
      | _ => Except.ok v

/-- Core scan of Python `str.format`: first argument is the remaining
input, second is `none` in literal mode or `some acc` inside a
replacement field with reversed accumulated content `acc`.  Doubled
braces are literal braces; a single closing brace outside a field and an
unterminated field raise `ValueError`. -/
def formatGo (pdict : String → Option String) : List Char → Option (List Char) → Except Err (List Char)
  | [], none => Except.ok []
  | [], some _ => Except.error Err.valueError
  | [c], none =>
    if c = '\x7b' then Except.error Err.valueError
    else if c = '\x7d' then Except.error Err.valueError
    else (formatGo pdict [] none).map (fun out => c :: out)
  | c :: d :: rest, none =>
    if c = '\x7b' then
      if d = '\x7b' then (formatGo pdict rest none).map (fun out => '\x7b' :: out)
      else formatGo pdict (d :: rest) (some [])
    else if c = '\x7d' then
      if d = '\x7d' then (formatGo pdict rest none).map (fun out => '\x7d' :: out)
      else Except.error Err.valueError
    else (formatGo pdict (d :: rest) none).map (fun out => c :: out)
  | c :: rest, some acc =>
    if c = '\x7d' then
      match lookupField pdict acc.reverse with
      | Except.error e => Except.error e
      | Except.ok v => (formatGo pdict rest none).map (fun out => v.data ++ out)
    else formatGo pdict rest (some (c :: acc))

/-- The syntactic list of arg_names of the replacement fields of a
template, collected by the same scan as `formatGo`. -/
def argNamesGo : List Char → Option (List Char) → List String
  | [], _ => []
  | [c], none => if c = '\x7b' then [] else if c = '\x7d' then [] else argNamesGo [] none
  | c :: d :: rest, none =>
    if c = '\x7b' then
      if d = '\x7b' then argNamesGo rest none
      else argNamesGo (d :: rest) (some [])
    else if c = '\x7d' then
      if d = '\x7d' then argNamesGo rest none
      else []
    else argNamesGo (d :: rest) none
  | c :: rest, some acc =>
    if c = '\x7d' then String.mk (fieldName acc.reverse) :: argNamesGo rest none
    else argNamesGo rest (some (c :: acc))

/-- The placeholder dictionary of arctee.py (lines 123-127): the fixed
supported set {utcnow, hostname, platform}, each mapped to its
provider's current value. -/
def PLACEHOLDERS (env : Env) : String → Option String := fun k =>
  if k = "utcnow" then some env.utcnow
  else if k = "hostname" then some env.hostname
  else if k = "platform" then some env.platform
  else none

/-- `replace_placeholders` (arctee.py lines 130-134): substitute the
placeholder values into the template via `str.format(**pdict)`. -/
def replace_placeholders (env : Env) (s : String) : Except Err String :=
  match formatGo (PLACEHOLDERS env) s.data none with
  | Except.error e => Except.error e
  | Except.ok out => Except.ok (String.mk out)

/-- The arg_names of the replacement fields of a template string. -/
def templateArgNames (s : String) : List String :=
  argNamesGo s.data none

/- ### The subprocess layer. -/

/-- Python's `CompletedProcess.check_returncode`: raises
`CalledProcessError` carrying the return code iff it is non-zero. -/
def check_returncode (r : CmdResult) : Except Err Unit :=
  if r.returncode ≠ 0 then Except.error (Err.calledProcessError r.returncode)
  else Except.ok ()

/-- `do_command` (arctee.py lines 158-174, identical in
exportwrapper.py lines 137-153): given the completed process of the user
command, return captured stdout on exit code 0; otherwise call
`check_returncode` (which raises `CalledProcessError`) and, should that
ever return, raise the trailing `AssertionError("shouldn't happen")`. -/
def do_command (r : CmdResult) : Except Err Bytes :=
  if r.returncode ≠ 0 then
    match check_returncode r with
    | Except.error e => Except.error e
    | Except.ok _ => Except.error Err.assertionError
  else Except.ok r.stdout

/-- Python's `subprocess.check_output`: the child's stdout on exit code
0, `CalledProcessError` otherwise. -/
def check_output (r : CmdResult) : Except Err Bytes :=
  if r.returncode ≠ 0 then Except.error (Err.calledProcessError r.returncode)
  else Except.ok r.stdout

/-- The retry combinator: `backoff.on_exception(backoff.expo,
CalledProcessError, max_tries=budget)` around `do_command`, as used in
`get_stdout` (arctee.py line 180) and `backoff_n_times` (bwnew.py lines
78-83).  `budget` is the total number of tries; `attempt` is the
1-indexed number of the next try.  On `CalledProcessError` with tries
remaining it retries (the backoff sleep is unobservable here); on the
last try, or on any other exception, the exception propagates. -/
def backoffRetry (env : Env) : Nat → Nat → Except Err Bytes × List Event
  | 0, _ => (Except.error Err.assertionError, [])
  | 1, attempt => (do_command (env.cmd attempt), [Event.runCmd attempt (env.cmd attempt)])
  | (b + 2), attempt =>
    match do_command (env.cmd attempt) with
    | Except.ok out => (Except.ok out, [Event.runCmd attempt (env.cmd attempt)])
    | Except.error (Err.calledProcessError _) =>
      let rest := backoffRetry env (b + 1) (attempt + 1)
      (rest.fst, Event.runCmd attempt (env.cmd attempt) :: rest.snd)
    | Except.error e => (Except.error e, [Event.runCmd attempt (env.cmd attempt)])

/-- `get_compression_cmd` (arctee.py lines 137-149): the external
compressor command line for a compression format; `zstd` is
special-cased, everything else goes through `apack`. -/
def get_compression_cmd (compression : String) : String :=
  if compression = "zstd" then "zstd --quiet -o /dev/stdout"
  else "apack -F " ++ compression ++ " -f /dev/stdout"

/-- `compress` (arctee.py lines 152-155): with no compression command the
data is returned unchanged; otherwise the external compressor is run on
the data via `check_output`. -/
def compress (env : Env) (data : Bytes) (compression_cmd : Option String) :
    Except Err Bytes × List Event :=
  match compression_cmd with
  | none => (Except.ok data, [])
  | some cmd =>
    (check_output (env.compressor cmd data), [Event.runCompressor cmd data (env.compressor cmd data)])

/-- `apack` (exportwrapper.py lines 126-134): with no compression format
the data is returned unchanged; otherwise `apack -F <fmt> -f /dev/stdout`
is run on the data via `check_output`. -/
def apack (env : Env) (data : Bytes) (compression : Option String) :
    Except Err Bytes × List Event :=
  match compression with
  | none => (Except.ok data, [])
  | some c =>
    let cmd := "apack -F " ++ c ++ " -f /dev/stdout"
    (check_output (env.compressor cmd data), [Event.runCompressor cmd data (env.compressor cmd data)])

/-- The command-running part of `get_stdout` (arctee.py lines 178-183):
run the command once when `retries` is `None`, otherwise under the retry
combinator with `max_tries = retries`. -/
def runCommandOnce (env : Env) (retries : Option Nat) : Except Err Bytes × List Event :=
  match retries with
  | some n => backoffRetry env n 1
  | none => (do_command (env.cmd 1), [Event.runCmd 1 (env.cmd 1)])

/-- `get_stdout` (arctee.py lines 177-185): run the command (retried or
not), then compress the captured stdout (outside the retried closure, so
compression failures are never retried). -/
def get_stdout (env : Env) (retries : Option Nat) (compression_cmd : Option String) :
    Except Err Bytes × List Event :=
  let run0 := runCommandOnce env retries
  match run0.fst with
  | Except.error e => (Except.error e, run0.snd)
  | Except.ok out =>
    let c := compress env out compression_cmd
    (c.fst, run0.snd ++ c.snd)

/-- The compression-command selection at the top of `do_export`
(arctee.py lines 196-200): an explicit `--compression-cmd` wins,
otherwise a `--compression` format is turned into a command line by
`get_compression_cmd`, otherwise no compression. -/
def pickCompression (compression_cmd compression : Option String) : Option String :=
  match compression_cmd with
  | some c => some c
  | none =>
    match compression with
    | none => none
    | some c => some (get_compression_cmd c)

/-- `do_export` (arctee.py lines 188-217, with exportwrapper.py lines
163-184 nearly identical): derive the compression command from the
format selector, assert the command vector is non-empty, capture and
compress the command's stdout, resolve the destination path, and write
the bytes there.  (The shlex join of the argument vector into a shell
line is abstracted into `Env.cmd`; no claim concerns quoting.) -/
def do_export (env : Env) (path : String) (retries : Option Nat)
    (compression_cmd : Option String) (compression : Option String)
    (command : List String) : Except Err Unit × List Event :=
  let ccmd := pickCompression compression_cmd compression
  match command with
  | [] => (Except.error Err.assertionError, [])
  | _ :: _ =>
    let s := get_stdout env retries ccmd
    match s.fst with
    | Except.error e => (Except.error e, s.snd)
    | Except.ok out =>
      match replace_placeholders env path with
      | Except.error e => (Except.error e, s.snd ++ [Event.resolve path (Except.error e)])
      | Except.ok rp =>
        (Except.ok (), s.snd ++ [Event.resolve path (Except.ok rp), Event.write rp out])

/-- `main` (arctee.py lines 220-281), after argument parsing: validate
the path template early (line 273, before the command runs; exceptions
propagate), strip a leading `--` from the remaining arguments (`rest[0]`
raises `IndexError` when they are empty), and run `do_export`. -/
def main (env : Env) (path : String) (retries : Option Nat)
    (compression : Option String) (compression_cmd : Option String)
    (rest : List String) : Except Err Unit × List Event :=
  match replace_placeholders env path with
  | Except.error e => (Except.error e, [Event.resolve path (Except.error e)])
  | Except.ok s0 =>
    match rest with
    | [] => (Except.error Err.indexError, [Event.resolve path (Except.ok s0)])
    | c0 :: cs =>
      let command := if c0 = "--" then cs else c0 :: cs
      let r := do_export env path retries compression_cmd compression command
      (r.fst, Event.resolve path (Except.ok s0) :: r.snd)

/-- Models CPython's process exit status for the script: `main` returning
normally exits with status 0; an uncaught exception exits with status 1
(the exception's payload, such as a `CalledProcessError`'s return code,
is printed in the traceback but not used as the exit status). -/
def exitCode (r : Except Err Unit × List Event) : Nat :=
  match r.fst with
  | Except.ok _ => 0
  | Except.error _ => 1

/- ### Event classification helpers. -/

/-- Whether an event is a user-command invocation. -/
def isRunCmd : Event → Bool
  | Event.runCmd _ _ => true
  | _ => false

/-- Whether an event is a file write. -/
def isWrite : Event → Bool
  | Event.write _ _ => true
  | _ => false

/-- Whether an event is a path-template resolution. -/
def isResolve : Event → Bool
  | Event.resolve _ _ => true
  | _ => false

/-- Whether an event is a subprocess invocation (user command or
external compressor), as opposed to a resolution or a write. -/
def isPipelineRun : Event → Bool
  | Event.runCmd _ _ => true
  | Event.runCompressor _ _ _ => true
  | _ => false

/-- Number of user-command invocations in a trace. -/
def runCmdCount (t : List Event) : Nat := (t.filter isRunCmd).length

/-- Number of file writes in a trace. -/
def writeCount (t : List Event) : Nat := (t.filter isWrite).length

/- ### The atomic writer.

Modelled from the spec: the `atomic_write` context manager comes from the
external `atomicwrites` dependency, not from this repository; spec
section 4.4 describes it as writing the full buffer to a temporary file
in the same directory as the destination and then replacing the
destination with the temporary file in one rename step.  The filesystem
is a map from paths to contents, and the write is the sequence of
filesystem states an observer could see. -/

/-- A filesystem: each path either holds a complete byte content or no
file. -/
abbrev Fs := String → Option Bytes

/-- Modelled from the spec: the intermediate filesystem states while the
buffer is being written to the temporary file — after `i` bytes, the
temporary file holds the first `i` bytes of the data and every other
path is untouched. -/
def writeTmpStates (fs : Fs) (tmp : String) (data : Bytes) : List Fs :=
  (List.range (data.length + 1)).map
    (fun i => fun p => if p = tmp then some (data.take i) else fs p)

/-- Modelled from the spec: the filesystem state after the single rename
step replacing the destination with the temporary file. -/
def renameState (fs : Fs) (tmp dest : String) (data : Bytes) : Fs :=
  fun p => if p = dest then some data else if p = tmp then none else fs p

/-- Modelled from the spec: every filesystem state an observer can see
during `atomic_write(dest)` of `data` on initial filesystem `fs`, using
temporary path `tmp`: the initial state, the states while the temporary
file fills up, and the state after the rename. -/
def atomic_write_states (fs : Fs) (tmp dest : String) (data : Bytes) : List Fs :=
  fs :: (writeTmpStates fs tmp data ++ [renameState fs tmp dest data])

/- ### Sample environments, used to instantiate the theorems below on
concrete runs. -/

/-- An environment whose command always succeeds with stdout `[48, 49]`
and whose compressor succeeds, appending a byte. -/
def env0 : Env where
  cmd := fun _ => ⟨0, [48, 49], []⟩
  compressor := fun _ d => ⟨0, d ++ [99], []⟩
  utcnow := "20200102T170015Z"
  hostname := "myhost"
  platform := "linux"

/-- An environment whose command always fails with exit code 7. -/
def env7 : Env where
  cmd := fun _ => ⟨7, [1], [2]⟩
  compressor := fun _ d => ⟨0, d, []⟩
  utcnow := "20200102T170015Z"
  hostname := "h"
  platform := "p"

/-- An environment whose command fails on the first attempt and succeeds
from the second on, and whose compressor always fails with exit code 2. -/
def envFlaky : Env where
  cmd := fun k => if k ≤ 1 then ⟨3, [], [5]⟩ else ⟨0, [42, 43], []⟩
  compressor := fun _ _ => ⟨2, [], [9]⟩
  utcnow := "20200102T170015Z"
  hostname := "h"
  platform := "p"

/- ### Basic facts about the subprocess layer. -/

/-- On exit code 0, `do_command` returns the captured stdout. -/
lemma do_command_ok (r : CmdResult) (h : r.returncode = 0) :
    do_command r = Except.ok r.stdout := by
  simp [do_command, h]

/-- On a non-zero exit code, `do_command` raises `CalledProcessError`
carrying that code. -/
lemma do_command_fail (r : CmdResult) (h : r.returncode ≠ 0) :
    do_command r = Except.error (Err.calledProcessError r.returncode) := by
  simp [do_command, check_returncode, h]

/-- Claim C9: `do_command` is total on its two outcomes — it returns the
captured stdout bytes exactly when the child's exit code is 0, raises
`CalledProcessError` exactly when the exit code is non-zero, and the
trailing `raise AssertionError` branch after `check_returncode` is
unreachable. -/
theorem do_command_total (r : CmdResult) :
    (r.returncode = 0 → do_command r = Except.ok r.stdout) ∧
    (r.returncode ≠ 0 → do_command r = Except.error (Err.calledProcessError r.returncode)) ∧
    do_command r ≠ Except.error Err.assertionError := by
  refine ⟨do_command_ok r, do_command_fail r, ?_⟩
  by_cases h : r.returncode = 0
  · rw [do_command_ok r h]; simp
  · rw [do_command_fail r h]; simp

/-- Witness for claim C9: both outcomes at concrete completed
processes. -/
theorem do_command_total_witness :
    do_command ⟨0, [49], []⟩ = Except.ok [49] ∧
    do_command ⟨5, [], [4]⟩ = Except.error (Err.calledProcessError 5) :=
  ⟨(do_command_total ⟨0, [49], []⟩).1 (by decide),
   (do_command_total ⟨5, [], [4]⟩).2.1 (by decide)⟩

/-- Claim C5: identity law — with no compression selector, the
compressor adapter (`compress` of arctee.py and `apack` of
exportwrapper.py) returns exactly the input bytes unchanged, invoking
no external process. -/
theorem compress_identity (env : Env) (data : Bytes) :
    compress env data none = (Except.ok data, []) ∧
    apack env data none = (Except.ok data, []) :=
  ⟨rfl, rfl⟩

/-- Claim C10: `do_export` requires a non-empty command vector — on the
empty vector it fails with `AssertionError` and its trace is empty: no
path resolution, no subprocess, no write has happened. -/
theorem do_export_empty_command (env : Env) (path : String) (retries : Option Nat)
    (compression_cmd : Option String) (compression : Option String) :
    do_export env path retries compression_cmd compression [] =
      (Except.error Err.assertionError, []) := by
  cases compression_cmd <;> cases compression <;> rfl

/-- Claim C1: atomicity of the write — in every filesystem state an
observer can see during `atomic_write`, the destination path holds
either its complete previous contents (or no file, if none existed) or
the complete new buffer, never a truncated or intermediate file; the
final state holds the complete new buffer. -/
theorem atomic_write_atomic (fs : Fs) (tmp dest : String) (data : Bytes)
    (hne : tmp ≠ dest) :
    (∀ s ∈ atomic_write_states fs tmp dest data,
        s dest = fs dest ∨ s dest = some data) ∧
    (atomic_write_states fs tmp dest data).getLast?
      = some (renameState fs tmp dest data) ∧
    renameState fs tmp dest data dest = some data := by
  refine ⟨?_, ?_, ?_⟩
  · intro s hs
    simp only [atomic_write_states, writeTmpStates, List.mem_cons, List.mem_append,
      List.mem_map, List.mem_range, List.mem_singleton] at hs
    rcases hs with rfl | (⟨i, _, rfl⟩ | (rfl | h))
    · exact Or.inl rfl
    · left
      have : dest ≠ tmp := fun h => hne h.symm
      simp [this]
    · right
      simp [renameState]
    · simp at h
  · show (fs :: (writeTmpStates fs tmp data ++ [renameState fs tmp dest data])).getLast? = _
    rw [← List.cons_append, List.getLast?_concat]
  · simp [renameState]

/-- Witness for claim C1: a concrete atomic write over an initially
empty filesystem. -/
theorem atomic_write_atomic_witness :
    ("/a/.out.tmp" : String) ≠ "/a/out" ∧
    ((∀ s ∈ atomic_write_states (fun _ => none) "/a/.out.tmp" "/a/out" [7, 8],
        s "/a/out" = (fun (_ : String) => (none : Option Bytes)) "/a/out" ∨
          s "/a/out" = some [7, 8]) ∧
     (atomic_write_states (fun _ => none) "/a/.out.tmp" "/a/out" [7, 8]).getLast?
       = some (renameState (fun _ => none) "/a/.out.tmp" "/a/out" [7, 8]) ∧
     renameState (fun _ => none) "/a/.out.tmp" "/a/out" [7, 8] "/a/out" = some [7, 8]) :=
  ⟨by decide, atomic_write_atomic (fun _ => none) "/a/.out.tmp" "/a/out" [7, 8] (by decide)⟩

/- ### The retry combinator's behaviour. -/

/-- When every attempt fails, the retry combinator with budget `n + 1`
runs attempts `a, a+1, …, a+n` and re-raises the last attempt's
`CalledProcessError`. -/
lemma backoffRetry_allFail (env : Env) (hfail : ∀ k, (env.cmd k).returncode ≠ 0) :
    ∀ n a, backoffRetry env (n + 1) a =
      (Except.error (Err.calledProcessError ((env.cmd (a + n)).returncode)),
       (List.range' a (n + 1)).map (fun k => Event.runCmd k (env.cmd k))) := by
  intro n
  induction n with
  | zero =>
    intro a
    simp [backoffRetry, do_command_fail _ (hfail a), List.range'_succ]
  | succ m ih =>
    intro a
    have h1 := do_command_fail _ (hfail a)
    have h2 := ih (a + 1)
    simp only [backoffRetry, h1, h2]
    have h3 : a + 1 + m = a + (m + 1) := by omega
    rw [h3]
    simp [List.range'_succ]

/-- When attempts `a, …, k-1` fail and attempt `k` succeeds within the
budget, the retry combinator stops at attempt `k`, returning its stdout,
having run exactly the attempts `a, …, k`. -/
lemma backoffRetry_firstSuccess (env : Env) :
    ∀ n a k, a ≤ k → k < a + n →
      (∀ j, a ≤ j → j < k → (env.cmd j).returncode ≠ 0) →
      (env.cmd k).returncode = 0 →
      backoffRetry env n a =
        (Except.ok (env.cmd k).stdout,
         (List.range' a (k + 1 - a)).map (fun j => Event.runCmd j (env.cmd j))) := by
  intro n
  induction n with
  | zero => intro a k h1 h2; omega
  | succ m ih =>
    intro a k h1 h2 hfail hsucc
    rcases Nat.eq_or_lt_of_le h1 with heq | hlt
    · subst heq
      have hk1 : a + 1 - a = 1 := by omega
      rcases m with _ | m2
      · simp [backoffRetry, do_command_ok _ hsucc, hk1, List.range'_succ]
      · simp [backoffRetry, do_command_ok _ hsucc, hk1, List.range'_succ]
    · have hfa := do_command_fail _ (hfail a (Nat.le_refl a) hlt)
      rcases m with _ | m2
      · omega
      · have ih2 := ih (a + 1) k hlt (by omega) (fun j hj1 hj2 => hfail j (by omega) hj2) hsucc
        simp only [backoffRetry, hfa, ih2]
        have h3 : k + 1 - a = (k - a) + 1 := by omega
        have h4 : k + 1 - (a + 1) = k - a := by omega
        rw [h3, List.range'_succ, h4]
        simp

/-- Every event the retry combinator emits is a user-command
invocation. -/
lemma backoffRetry_events (env : Env) :
    ∀ n a, ∀ e ∈ (backoffRetry env n a).snd, isPipelineRun e = true := by
  intro n
  induction n with
  | zero => intro a e he; simp [backoffRetry] at he
  | succ m ih =>
    intro a e he
    rcases m with _ | m2
    · simp only [backoffRetry] at he
      simp at he
      subst he
      rfl
    · simp only [backoffRetry] at he
      rcases hdc : do_command (env.cmd a) with e2 | out
      · rcases e2 with rc | _ | _ | _ | _ | _ | _ <;> rw [hdc] at he <;> simp at he
        case calledProcessError =>
          rcases he with rfl | he2
          · rfl
          · exact ih (a + 1) e he2
        all_goals (subst he; rfl)
      · rw [hdc] at he
        simp at he
        subst he
        rfl

/-- Every event `runCommandOnce` emits is a user-command invocation. -/
lemma runCommandOnce_events (env : Env) (retries : Option Nat) :
    ∀ e ∈ (runCommandOnce env retries).snd, isPipelineRun e = true := by
  rcases retries with _ | n
  · intro e he
    simp [runCommandOnce] at he
    subst he
    rfl
  · exact backoffRetry_events env n 1

/-- Every event the compressor adapter emits is a compressor
invocation. -/
lemma compress_events (env : Env) (data : Bytes) (ccmd : Option String) :
    ∀ e ∈ (compress env data ccmd).snd, isPipelineRun e = true := by
  rcases ccmd with _ | c
  · intro e he; simp [compress] at he
  · intro e he
    simp [compress] at he
    subst he
    rfl

/-- Every event `get_stdout` emits is a subprocess invocation (command
or compressor) — never a resolution or a write. -/
lemma get_stdout_events (env : Env) (retries : Option Nat) (ccmd : Option String) :
    ∀ e ∈ (get_stdout env retries ccmd).snd, isPipelineRun e = true := by
  intro e he
  simp only [get_stdout] at he
  rcases h0 : runCommandOnce env retries with ⟨rf, rs⟩
  rw [h0] at he
  have hrs : ∀ x ∈ rs, isPipelineRun x = true := by
    intro x hx
    exact runCommandOnce_events env retries x (by rw [h0]; exact hx)
  rcases rf with er | out
  · exact hrs e he
  · simp only [List.mem_append] at he
    rcases he with he | he
    · exact hrs e he
    · exact compress_events env out ccmd e he

/-- Number of user-command invocations in a pure run-command trace. -/
lemma runCmdCount_map_runCmd (l : List Nat) (g : Nat → CmdResult) :
    runCmdCount (l.map (fun k => Event.runCmd k (g k))) = l.length := by
  induction l with
  | nil => rfl
  | cons x xs ih => simp [runCmdCount, List.filter, isRunCmd] at ih ⊢; omega

/-- A pure run-command trace contains no write events. -/
lemma writeCount_map_runCmd (l : List Nat) (g : Nat → CmdResult) :
    writeCount (l.map (fun k => Event.runCmd k (g k))) = 0 := by
  induction l with
  | nil => rfl
  | cons x xs ih => simp [writeCount, List.filter, isWrite] at ih ⊢


/-- Claim C2: when the command fails on every attempt and the retry
budget is `n + 1 ≥ 1`, `do_export` invokes the command exactly `n + 1`
times, then fails with the last attempt's `CalledProcessError`, and its
trace contains no write (and no path resolution) at all. -/
theorem do_export_always_fail (env : Env) (path : String) (n : Nat)
    (c0 : String) (cs : List String)
    (hfail : ∀ k, (env.cmd k).returncode ≠ 0) :
    do_export env path (some (n + 1)) none none (c0 :: cs) =
      (Except.error (Err.calledProcessError ((env.cmd (n + 1)).returncode)),
       (List.range' 1 (n + 1)).map (fun k => Event.runCmd k (env.cmd k))) ∧
    runCmdCount (do_export env path (some (n + 1)) none none (c0 :: cs)).snd = n + 1 ∧
    writeCount (do_export env path (some (n + 1)) none none (c0 :: cs)).snd = 0 := by
  have hb := backoffRetry_allFail env hfail n 1
  have h1n : 1 + n = n + 1 := by omega
  rw [h1n] at hb
  have hmain : do_export env path (some (n + 1)) none none (c0 :: cs) =
      (Except.error (Err.calledProcessError ((env.cmd (n + 1)).returncode)),
       (List.range' 1 (n + 1)).map (fun k => Event.runCmd k (env.cmd k))) := by
    simp only [do_export, pickCompression, get_stdout, runCommandOnce, hb]
  refine ⟨hmain, ?_, ?_⟩ <;> rw [hmain]
  · simpa using runCmdCount_map_runCmd (List.range' 1 (n + 1)) env.cmd
  · simpa using writeCount_map_runCmd (List.range' 1 (n + 1)) env.cmd

/-- Witness for claim C2: with a command that always exits 7 and budget
3, the pipeline runs attempts 1, 2, 3, fails with exit code 7, and
writes nothing. -/
theorem do_export_always_fail_witness :
    (∀ k, (env7.cmd k).returncode ≠ 0) ∧
    (do_export env7 "/e/x.json" (some 3) none none ["sync"] =
       (Except.error (Err.calledProcessError 7),
        [Event.runCmd 1 ⟨7, [1], [2]⟩, Event.runCmd 2 ⟨7, [1], [2]⟩,
         Event.runCmd 3 ⟨7, [1], [2]⟩]) ∧
     runCmdCount (do_export env7 "/e/x.json" (some 3) none none ["sync"]).snd = 3 ∧
     writeCount (do_export env7 "/e/x.json" (some 3) none none ["sync"]).snd = 0) := by
  have hfail : ∀ k, (env7.cmd k).returncode ≠ 0 := fun k => by simp [env7]
  have h := do_export_always_fail env7 "/e/x.json" 2 "sync" [] hfail
  exact ⟨hfail, by simpa [env7, List.range'] using h⟩

/-- Claim C3: when the command first succeeds on attempt `k ≤ n`, the
retried runner returns attempt `k`'s stdout and performs no further
attempts: `do_export` runs exactly the attempts `1, …, k` and proceeds
to compression (here: the identity passthrough), path resolution and
the write of attempt `k`'s captured stdout. -/
theorem do_export_first_success (env : Env) (path rp : String) (n k : Nat)
    (c0 : String) (cs : List String)
    (hk1 : 1 ≤ k) (hkn : k ≤ n)
    (hfail : ∀ j, 1 ≤ j → j < k → (env.cmd j).returncode ≠ 0)
    (hsucc : (env.cmd k).returncode = 0)
    (hpath : replace_placeholders env path = Except.ok rp) :
    do_export env path (some n) none none (c0 :: cs) =
      (Except.ok (),
       ((List.range' 1 k).map (fun j => Event.runCmd j (env.cmd j))) ++
         [Event.resolve path (Except.ok rp),
          Event.write rp (env.cmd k).stdout]) ∧
    runCmdCount (do_export env path (some n) none none (c0 :: cs)).snd = k := by
  have hb := backoffRetry_firstSuccess env n 1 k hk1 (by omega) hfail hsucc
  have hk : k + 1 - 1 = k := by omega
  rw [hk] at hb
  have hmain : do_export env path (some n) none none (c0 :: cs) =
      (Except.ok (),
       ((List.range' 1 k).map (fun j => Event.runCmd j (env.cmd j))) ++
         [Event.resolve path (Except.ok rp),
          Event.write rp (env.cmd k).stdout]) := by
    simp only [do_export, pickCompression, get_stdout, runCommandOnce, hb, compress, hpath]
    simp
  refine ⟨hmain, ?_⟩
  rw [hmain]
  simp only [runCmdCount, List.filter_append]
  have h1 := runCmdCount_map_runCmd (List.range' 1 k) env.cmd
  simp only [runCmdCount] at h1
  simp [h1, isRunCmd, List.filter]

/-- Witness for claim C3: a command failing once then succeeding, with
budget 5, stops after attempt 2 and writes its stdout. -/
theorem do_export_first_success_witness :
    (1 ≤ 2 ∧ 2 ≤ 5 ∧ (∀ j, 1 ≤ j → j < 2 → (envFlaky.cmd j).returncode ≠ 0) ∧
     (envFlaky.cmd 2).returncode = 0 ∧
     replace_placeholders envFlaky "/e/x.json" = Except.ok "/e/x.json") ∧
    (do_export envFlaky "/e/x.json" (some 5) none none ["sync"] =
       (Except.ok (),
        [Event.runCmd 1 ⟨3, [], [5]⟩, Event.runCmd 2 ⟨0, [42, 43], []⟩,
         Event.resolve "/e/x.json" (Except.ok "/e/x.json"),
         Event.write "/e/x.json" [42, 43]]) ∧
     runCmdCount (do_export envFlaky "/e/x.json" (some 5) none none ["sync"]).snd = 2) := by
  have hf : ∀ j, 1 ≤ j → j < 2 → (envFlaky.cmd j).returncode ≠ 0 := by
    intro j h1 h2
    have : j = 1 := by omega
    subst this
    simp [envFlaky]
  have h := do_export_first_success envFlaky "/e/x.json" "/e/x.json" 5 2 "sync" []
    (by omega) (by omega) hf (by simp [envFlaky]) (by rfl)
  refine ⟨⟨by omega, by omega, hf, by simp [envFlaky], by rfl⟩, ?_⟩
  simpa [envFlaky, List.range'] using h

/-- Claim C6: when the external compressor exits non-zero, the pipeline
fails terminally with the compressor's `CalledProcessError`: the command
is not re-invoked (exactly the `k` attempts that led to success), the
compressor is invoked exactly once, the captured output is discarded,
and nothing is resolved or written. -/
theorem do_export_compressor_failure (env : Env) (path : String) (n k : Nat)
    (c0 : String) (cs : List String) (ccmd : String)
    (hk1 : 1 ≤ k) (hkn : k ≤ n)
    (hfail : ∀ j, 1 ≤ j → j < k → (env.cmd j).returncode ≠ 0)
    (hsucc : (env.cmd k).returncode = 0)
    (hcomp : (env.compressor ccmd (env.cmd k).stdout).returncode ≠ 0) :
    do_export env path (some n) (some ccmd) none (c0 :: cs) =
      (Except.error (Err.calledProcessError
         ((env.compressor ccmd (env.cmd k).stdout).returncode)),
       ((List.range' 1 k).map (fun j => Event.runCmd j (env.cmd j))) ++
         [Event.runCompressor ccmd (env.cmd k).stdout
            (env.compressor ccmd (env.cmd k).stdout)]) ∧
    runCmdCount (do_export env path (some n) (some ccmd) none (c0 :: cs)).snd = k ∧
    writeCount (do_export env path (some n) (some ccmd) none (c0 :: cs)).snd = 0 := by
  have hb := backoffRetry_firstSuccess env n 1 k hk1 (by omega) hfail hsucc
  have hk : k + 1 - 1 = k := by omega
  rw [hk] at hb
  have hco : check_output (env.compressor ccmd (env.cmd k).stdout) =
      Except.error (Err.calledProcessError
        ((env.compressor ccmd (env.cmd k).stdout).returncode)) := by
    simp [check_output, hcomp]
  have hmain : do_export env path (some n) (some ccmd) none (c0 :: cs) =
      (Except.error (Err.calledProcessError
         ((env.compressor ccmd (env.cmd k).stdout).returncode)),
       ((List.range' 1 k).map (fun j => Event.runCmd j (env.cmd j))) ++
         [Event.runCompressor ccmd (env.cmd k).stdout
            (env.compressor ccmd (env.cmd k).stdout)]) := by
    simp only [do_export, pickCompression, get_stdout, runCommandOnce, hb, compress, hco]
  refine ⟨hmain, ?_, ?_⟩ <;> rw [hmain]
  · simp only [runCmdCount, List.filter_append]
    have h1 := runCmdCount_map_runCmd (List.range' 1 k) env.cmd
    simp only [runCmdCount] at h1
    simp [h1, isRunCmd, List.filter]
  · simp only [writeCount, List.filter_append]
    have h1 := writeCount_map_runCmd (List.range' 1 k) env.cmd
    simp only [writeCount] at h1
    simp [h1, isWrite, List.filter]

/-- Witness for claim C6: the flaky command succeeds on attempt 2, the
compressor exits 2, the pipeline fails with exit code 2 having invoked
the command twice and written nothing. -/
theorem do_export_compressor_failure_witness :
    (1 ≤ 2 ∧ 2 ≤ 5 ∧ (∀ j, 1 ≤ j → j < 2 → (envFlaky.cmd j).returncode ≠ 0) ∧
     (envFlaky.cmd 2).returncode = 0 ∧
     (envFlaky.compressor "xz" (envFlaky.cmd 2).stdout).returncode ≠ 0) ∧
    (do_export envFlaky "/e/x.json" (some 5) (some "xz") none ["sync"] =
       (Except.error (Err.calledProcessError 2),
        [Event.runCmd 1 ⟨3, [], [5]⟩, Event.runCmd 2 ⟨0, [42, 43], []⟩,
         Event.runCompressor "xz" [42, 43] ⟨2, [], [9]⟩]) ∧
     runCmdCount (do_export envFlaky "/e/x.json" (some 5) (some "xz") none ["sync"]).snd = 2 ∧
     writeCount (do_export envFlaky "/e/x.json" (some 5) (some "xz") none ["sync"]).snd = 0) := by
  have hf : ∀ j, 1 ≤ j → j < 2 → (envFlaky.cmd j).returncode ≠ 0 := by
    intro j h1 h2
    have : j = 1 := by omega
    subst this
    simp [envFlaky]
  have h := do_export_compressor_failure envFlaky "/e/x.json" 5 2 "sync" [] "xz"
    (by omega) (by omega) hf (by simp [envFlaky]) (by simp [envFlaky])
  refine ⟨⟨by omega, by omega, hf, by simp [envFlaky], by simp [envFlaky]⟩, ?_⟩
  simpa [envFlaky, List.range'] using h

/- ### Path resolution happens once, after the command has finished. -/

/-- Claim C7: in every successful `do_export` run, the destination path
resolution is performed exactly once, strictly after **all** subprocess
activity (command attempts and compression), and the write goes to
exactly the path that this single resolution produced. -/
theorem do_export_resolve_once_after (env : Env) (path : String) (retries : Option Nat)
    (compression_cmd compression : Option String) (command : List String) (t : List Event)
    (hrun : do_export env path retries compression_cmd compression command = (Except.ok (), t)) :
    ∃ pre rp out,
      t = pre ++ [Event.resolve path (Except.ok rp), Event.write rp out] ∧
      replace_placeholders env path = Except.ok rp ∧
      ∀ e ∈ pre, isPipelineRun e = true := by
  cases command with
  | nil => simp [do_export] at hrun
  | cons c0 cs =>
    simp only [do_export] at hrun
    rcases hgs : get_stdout env retries (pickCompression compression_cmd compression) with ⟨sf, ss⟩
    rw [hgs] at hrun
    cases sf with
    | error e => simp at hrun
    | ok out =>
      cases hrp : replace_placeholders env path with
      | error e => rw [hrp] at hrun; simp at hrun
      | ok rp =>
        rw [hrp] at hrun
        have ht : t = ss ++ [Event.resolve path (Except.ok rp), Event.write rp out] := by
          have h2 := congrArg Prod.snd hrun
          simpa using h2.symm
        refine ⟨ss, rp, out, ht, rfl, ?_⟩
        intro e he
        exact get_stdout_events env retries (pickCompression compression_cmd compression) e
          (by rw [hgs]; exact he)

/-- Witness for claim C7: a concrete successful run; its single resolve
event sits after the command invocation, right before the write. -/
theorem do_export_resolve_once_after_witness :
    (do_export env0 "/e/x.json" none none none ["sync"] =
       (Except.ok (),
        [Event.runCmd 1 ⟨0, [48, 49], []⟩,
         Event.resolve "/e/x.json" (Except.ok "/e/x.json"),
         Event.write "/e/x.json" [48, 49]])) ∧
    (∃ pre rp out,
       ([Event.runCmd 1 ⟨0, [48, 49], []⟩,
         Event.resolve "/e/x.json" (Except.ok "/e/x.json"),
         Event.write "/e/x.json" [48, 49]] : List Event)
         = pre ++ [Event.resolve "/e/x.json" (Except.ok rp), Event.write rp out] ∧
       replace_placeholders env0 "/e/x.json" = Except.ok rp ∧
       ∀ e ∈ pre, isPipelineRun e = true) :=
  ⟨rfl, do_export_resolve_once_after env0 "/e/x.json" none none none ["sync"] _ rfl⟩

/- ### Unknown placeholders fail before any work. -/

/-- A successful field lookup means the dictionary holds the field's
arg_name. -/
lemma lookupField_ok_name (pdict : String → Option String) (field : List Char) (v : String)
    (h : lookupField pdict field = Except.ok v) :
    pdict (String.mk (fieldName field)) = some v := by
  simp only [lookupField] at h
  split at h
  · simp at h
  · split at h
    · simp at h
    · rcases hp : pdict (String.mk (fieldName field)) with _ | w
      · rw [hp] at h; simp at h
      · rw [hp] at h
        simp only at h
        split at h
        · simp only [Except.ok.injEq] at h; subst h; rfl
        · simp at h
        · simp at h
        · simp only [Except.ok.injEq] at h; subst h; rfl

/-- When the format scan succeeds, every arg_name it encountered is
present in the placeholder dictionary. -/
lemma formatGo_ok_names (pdict : String → Option String) (cs : List Char) (mode : Option (List Char)) :
    ∀ out, formatGo pdict cs mode = Except.ok out →
      ∀ nm ∈ argNamesGo cs mode, ∃ v, pdict nm = some v := by
  induction cs, mode using formatGo.induct pdict with
  | case1 =>
    intro out h nm hnm
    simp [argNamesGo] at hnm
  | case2 acc =>
    intro out h nm hnm
    simp [formatGo] at h
  | case3 =>
    intro out h nm hnm
    simp [formatGo] at h
  | case4 hb =>
    intro out h nm hnm
    simp [formatGo] at h
  | case5 c hc1 hc2 ih =>
    intro out h nm hnm
    simp [argNamesGo, hc1, hc2] at hnm
  | case6 rest ih =>
    intro out h nm hnm
    simp only [formatGo, if_pos rfl] at h
    simp only [argNamesGo, if_pos rfl] at hnm
    rcases hr : formatGo pdict rest none with e2 | out2
    · rw [hr] at h; simp [Except.map] at h
    · exact ih out2 hr nm hnm
  | case7 d rest hd ih =>
    intro out h nm hnm
    simp [formatGo, argNamesGo, hd] at h ih hnm
    exact ih out h nm hnm
  | case8 rest hb ih =>
    intro out h nm hnm
    simp only [formatGo, if_neg hb, if_pos rfl] at h
    simp only [argNamesGo, if_neg hb, if_pos rfl] at hnm
    rcases hr : formatGo pdict rest none with e2 | out2
    · rw [hr] at h; simp [Except.map] at h
    · exact ih out2 hr nm hnm
  | case9 d rest hd hb =>
    intro out h nm hnm
    simp only [formatGo, if_neg hb, if_pos rfl, if_neg hd] at h
    simp at h
  | case10 c d rest hc1 hc2 ih =>
    intro out h nm hnm
    simp only [formatGo, if_neg hc1, if_neg hc2] at h
    simp only [argNamesGo, if_neg hc1, if_neg hc2] at hnm
    rcases hr : formatGo pdict (d :: rest) none with e2 | out2
    · rw [hr] at h; simp [Except.map] at h
    · exact ih out2 hr nm hnm
  | case11 rest acc e hl =>
    intro out h nm hnm
    simp only [formatGo, if_pos rfl, hl] at h
    simp at h
  | case12 rest acc v hl ih =>
    intro out h nm hnm
    simp only [formatGo, if_pos rfl, hl] at h
    simp [argNamesGo] at hnm
    rcases hnm with rfl | hnm2
    · exact ⟨v, lookupField_ok_name pdict acc.reverse v hl⟩
    · rcases hr : formatGo pdict rest none with e2 | out2
      · rw [hr] at h; simp [Except.map] at h
      · exact ih out2 hr nm hnm2
  | case13 c rest acc hc ih =>
    intro out h nm hnm
    simp only [formatGo, if_neg hc] at h
    simp only [argNamesGo, if_neg hc] at hnm
    exact ih out h nm hnm

/-- Claim C4: a path template containing a placeholder name outside the
supported set {utcnow, hostname, platform} is rejected by `main`'s
startup validation: the run fails with the validation error as its only
event, and the user command's invocation count is zero. -/
theorem main_unknown_placeholder (env : Env) (path : String) (retries : Option Nat)
    (compression compression_cmd : Option String) (rest : List String)
    (h : ∃ nm ∈ templateArgNames path,
           nm ≠ "utcnow" ∧ nm ≠ "hostname" ∧ nm ≠ "platform") :
    (∃ e, main env path retries compression compression_cmd rest =
        (Except.error e, [Event.resolve path (Except.error e)])) ∧
    runCmdCount (main env path retries compression compression_cmd rest).snd = 0 := by
  obtain ⟨nm, hmem, hn1, hn2, hn3⟩ := h
  have hnone : PLACEHOLDERS env nm = none := by simp [PLACEHOLDERS, hn1, hn2, hn3]
  have herr : ∃ e, formatGo (PLACEHOLDERS env) path.data none = Except.error e := by
    rcases hf : formatGo (PLACEHOLDERS env) path.data none with e | out
    · exact ⟨e, rfl⟩
    · exfalso
      obtain ⟨v, hv⟩ := formatGo_ok_names (PLACEHOLDERS env) path.data none out hf nm hmem
      rw [hnone] at hv
      cases hv
  obtain ⟨e, he⟩ := herr
  have hrp : replace_placeholders env path = Except.error e := by
    simp [replace_placeholders, he]
  constructor
  · exact ⟨e, by simp [main, hrp]⟩
  · simp [main, hrp, runCmdCount, List.filter, isRunCmd]

/-- Witness for claim C4: the template `/e/{foo}.json` carries the
unsupported name `foo`; `main` fails on it before ever invoking the
command. -/
theorem main_unknown_placeholder_witness :
    (∃ nm ∈ templateArgNames "/e/\x7bfoo\x7d.json",
        nm ≠ "utcnow" ∧ nm ≠ "hostname" ∧ nm ≠ "platform") ∧
    ((∃ e, main env0 "/e/\x7bfoo\x7d.json" none none none ["sync"] =
        (Except.error e, [Event.resolve "/e/\x7bfoo\x7d.json" (Except.error e)])) ∧
     runCmdCount (main env0 "/e/\x7bfoo\x7d.json" none none none ["sync"]).snd = 0) :=
  ⟨by decide, main_unknown_placeholder env0 "/e/\x7bfoo\x7d.json" none none none ["sync"] (by decide)⟩

/- ### The process exit code. -/

/-- Counterexample to claim C8 as stated: a run whose command fails with
exit code 7 makes the pipeline fail, yet the process exit status is 1
(Python's uncaught-exception status), not 7 — the last failed command's
exit code is not propagated to the exit status. -/
theorem main_exit_code_not_propagated :
    (main env7 "/e/a.json" none none none ["sync"]).fst
        = Except.error (Err.calledProcessError 7) ∧
    (env7.cmd 1).returncode = 7 ∧
    exitCode (main env7 "/e/a.json" none none none ["sync"]) = 1 ∧
    exitCode (main env7 "/e/a.json" none none none ["sync"]) ≠ 7 :=
  ⟨rfl, rfl, rfl, by decide⟩

/-- Claim C8 (amended): the process exit code is 0 on success; on any
pipeline failure it is exactly 1 — the uncaught exception's status —
while the last failed command's exit code is carried inside the raised
`CalledProcessError`, not in the exit status. -/
theorem main_exit_code (env : Env) (path rp : String) (n : Nat)
    (c0 : String) (cs : List String)
    (hne : c0 ≠ "--")
    (hpath : replace_placeholders env path = Except.ok rp) :
    ((main env path (some (n + 1)) none none (c0 :: cs)).fst = Except.ok () →
       exitCode (main env path (some (n + 1)) none none (c0 :: cs)) = 0) ∧
    ((∀ k, (env.cmd k).returncode ≠ 0) →
       (main env path (some (n + 1)) none none (c0 :: cs)).fst =
           Except.error (Err.calledProcessError ((env.cmd (n + 1)).returncode)) ∧
       exitCode (main env path (some (n + 1)) none none (c0 :: cs)) = 1) := by
  constructor
  · intro h
    simp [exitCode, h]
  · intro hfail
    have hb := backoffRetry_allFail env hfail n 1
    have h1n : 1 + n = n + 1 := by omega
    rw [h1n] at hb
    have hm : (main env path (some (n + 1)) none none (c0 :: cs)).fst =
        Except.error (Err.calledProcessError ((env.cmd (n + 1)).returncode)) := by
      simp [main, hpath, hne, do_export, pickCompression, get_stdout, runCommandOnce, hb]
    exact ⟨hm, by simp [exitCode, hm]⟩

/-- Witness for claim C8 (amended): the always-failing command gives a
run that exits 1 while the `CalledProcessError` carries exit code 7. -/
theorem main_exit_code_witness :
    (("sync" : String) ≠ "--" ∧
     replace_placeholders env7 "/e/a.json" = Except.ok "/e/a.json" ∧
     (∀ k, (env7.cmd k).returncode ≠ 0)) ∧
    ((main env7 "/e/a.json" (some 1) none none ["sync"]).fst =
        Except.error (Err.calledProcessError ((env7.cmd 1).returncode)) ∧
     exitCode (main env7 "/e/a.json" (some 1) none none ["sync"]) = 1) := by
  have hfail : ∀ k, (env7.cmd k).returncode ≠ 0 := fun k => by simp [env7]
  exact ⟨⟨by decide, by rfl, hfail⟩,
    (main_exit_code env7 "/e/a.json" "/e/a.json" 0 "sync" [] (by decide) (by rfl)).2 hfail⟩

end Arctee
